import Mathlib

/-!
Shallow embedding of the file-indexing bot (`bot.py`): the MIME classifier
`get_file_type_hint`, the ingestion handler `handle_file`, and the search
handler `search_files`, together with the in-memory index `FILE_DATABASE`
modelled as an insertion-ordered association list (Python dicts preserve
insertion order, and overwriting a key keeps its position).

Python strings are modelled as `List Char`; Python `str.lower` / `str.upper`
as character-wise `Char.toLower` / `Char.toUpper`; Python `x or default`
on optional strings (where both `None` and `""` are falsy) as `orDefault`.
-/

set_option maxHeartbeats 1000000

abbrev Str := List Char

/-- Coerce a Lean string literal to the `List Char` model. -/
def str (s : String) : Str := s.data

/-- The `VIDEO_MIMES` list from `bot.py`. -/
def VIDEO_MIMES : List Str :=
  [str "video/mp4", str "video/x-matroska", str "video/quicktime",
   str "video/mpeg", str "video/webm", str "video/x-msvideo"]

/-- The `DOCUMENT_MIMES` list from `bot.py`. -/
def DOCUMENT_MIMES : List Str :=
  [str "application/pdf", str "application/zip", str "text/plain"]

/-- The `IMAGE_MIMES` list from `bot.py`. -/
def IMAGE_MIMES : List Str :=
  [str "image/jpeg", str "image/png", str "image/gif"]

/-- Python `s.split('/')`: split a string at every `'/'` character.
`splitOnSlash [] = [[]]`, matching Python `"".split('/') == [""]`. -/
def splitOnSlash : Str → List Str
  | [] => [[]]
  | c :: rest =>
    if c = '/' then [] :: splitOnSlash rest
    else
      match splitOnSlash rest with
      | [] => [[c]]
      | h :: t => (c :: h) :: t

/-- Python `xs[-1]` on a list that is never empty (with `[]` as the
unreachable default): the last element. -/
def lastD : List Str → Str
  | [] => []
  | [a] => a
  | _ :: b :: rest => lastD (b :: rest)

/-- `get_file_type_hint` from `bot.py`: classify a MIME type into a
human-readable hint. -/
def get_file_type_hint (mime_type : Str) : Str :=
  if mime_type ∈ VIDEO_MIMES then str "Video (MP4/MKV/Other)"
  else if mime_type ∈ DOCUMENT_MIMES then str "Document (PDF/ZIP/Text)"
  else if mime_type ∈ IMAGE_MIMES then str "Image"
  else if mime_type.contains '/' then
    (lastD (splitOnSlash mime_type)).map Char.toUpper
  else str "Other File"

/-- Reference formalisation of "the substring after the last `'/'`"
(equal to the whole string when no `'/'` occurs). -/
def lastAfterSlash : Str → Str
  | [] => []
  | c :: rest =>
    if rest.contains '/' then lastAfterSlash rest
    else if c = '/' then rest
    else c :: rest

/-- Reference definition of the classifier, written from the specification:
fixed sets checked video, document, image in order; else the uppercased
substring after the last `'/'` when one occurs; else `"Other File"`. -/
def classifyRef (m : Str) : Str :=
  if m ∈ VIDEO_MIMES then str "Video (MP4/MKV/Other)"
  else if m ∈ DOCUMENT_MIMES then str "Document (PDF/ZIP/Text)"
  else if m ∈ IMAGE_MIMES then str "Image"
  else if m.contains '/' then (lastAfterSlash m).map Char.toUpper
  else str "Other File"

/-- One stored metadata record of `FILE_DATABASE`:
`{file_name, mime_type, user_id, type_hint, file_unique_id}`. -/
structure FileRecord where
  file_name : Str
  mime_type : Str
  user_id : Nat
  type_hint : Str
  file_unique_id : Str
  deriving DecidableEq

/-- `FILE_DATABASE`, a Python dict `{file_id: record}`, modelled as an
insertion-ordered association list with pairwise-distinct keys. -/
abbrev Db := List (Str × FileRecord)

/-- Python dict assignment `FILE_DATABASE[file_id] = record`: overwrite in
place if the key is present (keeping its position), else append at the end. -/
def dbInsert (k : Str) (v : FileRecord) : Db → Db
  | [] => [(k, v)]
  | (k₀, v₀) :: rest =>
    if k = k₀ then (k, v) :: rest else (k₀, v₀) :: dbInsert k v rest

/-- Dict lookup: the record stored under key `k`, if any. -/
def dbLookup (k : Str) : Db → Option FileRecord
  | [] => none
  | (k₀, v₀) :: rest => if k = k₀ then some v₀ else dbLookup k rest

/-- Number of entries stored under key `k`. -/
def countKey (k : Str) : Db → Nat
  | [] => 0
  | kv :: rest => (if kv.1 = k then 1 else 0) + countKey k rest

/-- The keys of the index are pairwise distinct (true of every Python dict,
and preserved by `dbInsert`). -/
def keysNodup (db : Db) : Prop := (db.map Prod.fst).Nodup

/-- One Telegram attachment payload (`message.document` / `.video` /
`.audio`): file id, unique file id, and the optional declared filename and
MIME type (Python `None` is `none`; the empty string is a possible value). -/
structure Attachment where
  file_id : Str
  file_unique_id : Str
  file_name : Option Str
  mime_type : Option Str
  deriving DecidableEq

/-- The parts of a Telegram message that `handle_file` and `search_files`
read: the three optional attachment kinds and the sender's user id. -/
structure Message where
  document : Option Attachment
  video : Option Attachment
  audio : Option Attachment
  from_user_id : Nat
  deriving DecidableEq

/-- Python `x or default` where `x` is an optional string: both `None` and
the empty string are falsy, so each yields the default. -/
def orDefault (x : Option Str) (d : Str) : Str :=
  match x with
  | none => d
  | some s => if s = [] then d else s

/-- The `if message.document: ... elif message.video: ... elif message.audio:`
chain of `handle_file`: the chosen attachment with its resolved filename and
MIME type, or `none` when the message carries no attachment kind. -/
def selectAttachment (msg : Message) : Option (Attachment × Str × Str) :=
  match msg.document with
  | some a =>
    some (a, orDefault a.file_name (str "Unnamed Document"),
          orDefault a.mime_type (str "application/octet-stream"))
  | none =>
    match msg.video with
    | some a =>
      some (a, orDefault a.file_name (str "Unnamed Video"),
            orDefault a.mime_type (str "video/mp4"))
    | none =>
      match msg.audio with
      | some a =>
        some (a, orDefault a.file_name (str "Unnamed Audio"),
              orDefault a.mime_type (str "audio/mpeg"))
      | none => none

/-- Outcome of `handle_file`: either a record was stored under the given
file id (and echoed in the confirmation reply), or the message carried no
recognised attachment and the "nothing to process" reply was sent. -/
inductive IngestResult where
  | stored (file_id : Str) (r : FileRecord)
  | unsupported
  deriving DecidableEq

/-- `handle_file` from `bot.py`: resolve the attachment, classify its MIME
type, and store the metadata record in the index keyed by `file_id`. -/
def handle_file (db : Db) (msg : Message) : Db × IngestResult :=
  match selectAttachment msg with
  | some (a, file_name, mime_type) =>
    let type_hint := get_file_type_hint mime_type
    let r : FileRecord :=
      { file_name := file_name, mime_type := mime_type,
        user_id := msg.from_user_id, type_hint := type_hint,
        file_unique_id := a.file_unique_id }
    (dbInsert a.file_id r db, IngestResult.stored a.file_id r)
  | none => (db, IngestResult.unsupported)

/-- Test whether `q` occurs at the start of `s` (character lists). -/
def startsWithL : Str → Str → Bool
  | [], _ => true
  | _ :: _, [] => false
  | a :: as, b :: bs => a = b && startsWithL as bs

/-- Python `q in s` on strings: `q` occurs as a contiguous substring of `s`
(the empty string occurs in everything). -/
def containsSub (q : Str) : Str → Bool
  | [] => startsWithL q []
  | s@(_ :: rest) => startsWithL q s || containsSub q rest

/-- Python `" ".join(args)`. -/
def joinSpace : List Str → Str
  | [] => []
  | [a] => a
  | a :: b :: rest => a ++ ' ' :: joinSpace (b :: rest)

/-- The scan-and-filter loop of `search_files` (lines 130-133 of `bot.py`):
records of the index whose `user_id` equals the caller's and whose
lower-cased `file_name` contains the (already lower-cased) query, in index
order. -/
def searchScan (db : Db) (user_id : Nat) (query : Str) : List FileRecord :=
  (db.filter (fun kv =>
    kv.2.user_id == user_id && containsSub query (kv.2.file_name.map Char.toLower))).map
    Prod.snd

/-- Outcome of `search_files`: the missing-keyword prompt, the no-matches
reply, or the result reply listing `shown` (at most 5 records) out of
`total` matches. -/
inductive SearchOutcome where
  | missingQuery
  | noResults (query : Str)
  | results (shown : List FileRecord) (total : Nat)
  deriving DecidableEq

/-- `search_files` from `bot.py`: reject an empty argument list, lower-case
the joined query, scan the index, and reply with the first 5 matches
(`results[:5]`) and the total match count (`len(results)`). -/
def search_files (db : Db) (user_id : Nat) (args : List Str) : SearchOutcome :=
  if args = [] then SearchOutcome.missingQuery
  else
    let query := (joinSpace args).map Char.toLower
    let results := searchScan db user_id query
    if results = [] then SearchOutcome.noResults query
    else SearchOutcome.results (results.take 5) results.length

/-- Index states reachable from the empty initial index by ingestion steps
(search performs no mutation: `search_files` does not return a new index). -/
inductive Reachable : Db → Prop
  | init : Reachable []
  | step {db : Db} (msg : Message) : Reachable db → Reachable (handle_file db msg).1

/-- Sample record owned by user 1 whose name is the given literal. -/
def xrec (nm : String) : FileRecord :=
  { file_name := str nm, mime_type := str "text/plain", user_id := 1,
    type_hint := str "Document (PDF/ZIP/Text)", file_unique_id := str nm }

/-- Sample index holding seven records of user 1, all matching query "x". -/
def db7 : Db :=
  [(str "k1", xrec "x1"), (str "k2", xrec "x2"), (str "k3", xrec "x3"),
   (str "k4", xrec "x4"), (str "k5", xrec "x5"), (str "k6", xrec "x6"),
   (str "k7", xrec "x7")]

/-- Sample document attachment with full metadata. -/
def attReport : Attachment :=
  { file_id := str "fid-report", file_unique_id := str "uid-report",
    file_name := some (str "Report_2024.pdf"), mime_type := some (str "application/pdf") }

/-- Sample attachment reusing the file id of `attReport` with different
metadata. -/
def attBackup : Attachment :=
  { file_id := str "fid-report", file_unique_id := str "uid-backup",
    file_name := some (str "Backup.zip"), mime_type := some (str "application/zip") }

/-- Sample attachment with absent filename and MIME type. -/
def attNoMeta : Attachment :=
  { file_id := str "fid-n", file_unique_id := str "uid-n",
    file_name := none, mime_type := none }

/-- Sample attachment with empty-string filename and MIME type. -/
def attEmptyMeta : Attachment :=
  { file_id := str "fid-e", file_unique_id := str "uid-e",
    file_name := some [], mime_type := some [] }

/-- The record `handle_file` stores for `attReport` sent by user 42. -/
def recReport : FileRecord :=
  { file_name := str "Report_2024.pdf", mime_type := str "application/pdf",
    user_id := 42, type_hint := str "Document (PDF/ZIP/Text)",
    file_unique_id := str "uid-report" }

/-- The record `handle_file` stores for `attBackup` sent by user 43. -/
def recBackup : FileRecord :=
  { file_name := str "Backup.zip", mime_type := str "application/zip",
    user_id := 43, type_hint := str "Document (PDF/ZIP/Text)",
    file_unique_id := str "uid-backup" }

/-- Sample record of user 1 with a mixed-case file name. -/
def recMovie : FileRecord :=
  { file_name := str "MyMovie.mp4", mime_type := str "video/mp4",
    user_id := 1, type_hint := str "Video (MP4/MKV/Other)",
    file_unique_id := str "uid-movie" }

/-- Sample index holding only `recMovie`. -/
def dbMovie : Db := [(str "fid-movie", recMovie)]

/-- Message carrying `attReport` as a document, from user 42. -/
def msgReport : Message :=
  { document := some attReport, video := none, audio := none, from_user_id := 42 }

/-- The first five records of `db7`. -/
def top5 : List FileRecord :=
  [xrec "x1", xrec "x2", xrec "x3", xrec "x4", xrec "x5"]

/-- Message carrying `attNoMeta` as a document. -/
def msgNoMetaDoc : Message :=
  { document := some attNoMeta, video := none, audio := none, from_user_id := 7 }

/-- Message carrying `attNoMeta` as a video. -/
def msgNoMetaVid : Message :=
  { document := none, video := some attNoMeta, audio := none, from_user_id := 7 }

/-- Message carrying `attNoMeta` as an audio clip. -/
def msgNoMetaAud : Message :=
  { document := none, video := none, audio := some attNoMeta, from_user_id := 7 }

/-- Message carrying `attEmptyMeta` as a document. -/
def msgEmptyDoc : Message :=
  { document := some attEmptyMeta, video := none, audio := none, from_user_id := 9 }

/-- Message carrying `attEmptyMeta` as a video. -/
def msgEmptyVid : Message :=
  { document := none, video := some attEmptyMeta, audio := none, from_user_id := 9 }

/-- Message carrying `attEmptyMeta` as an audio clip. -/
def msgEmptyAud : Message :=
  { document := none, video := none, audio := some attEmptyMeta, from_user_id := 9 }

/-- Message carrying no attachment at all. -/
def msgNothing : Message :=
  { document := none, video := none, audio := none, from_user_id := 5 }

lemma splitOnSlash_ne_nil (m : Str) : splitOnSlash m ≠ [] := by
  cases m with
  | nil => simp [splitOnSlash]
  | cons c rest =>
    simp only [splitOnSlash]
    split
    · simp
    · split <;> simp

lemma splitOnSlash_of_not_contains (m : Str) (h : m.contains '/' = false) :
    splitOnSlash m = [m] := by
  induction m with
  | nil => rfl
  | cons c rest ih =>
    rw [List.contains_cons, Bool.or_eq_false_iff] at h
    have hc : ¬ c = '/' := fun hcc => by simp [hcc] at h
    simp [splitOnSlash, hc, ih h.2]

lemma lastAfterSlash_of_not_contains (m : Str) (h : m.contains '/' = false) :
    lastAfterSlash m = m := by
  cases m with
  | nil => rfl
  | cons c rest =>
    rw [List.contains_cons, Bool.or_eq_false_iff] at h
    have hc : ¬ c = '/' := fun hcc => by simp [hcc] at h
    have hm : ¬ '/' ∈ rest := by simpa using h.2
    simp [lastAfterSlash, hm, hc]

lemma splitOnSlash_length_of_contains (m : Str) (h : m.contains '/' = true) :
    2 ≤ (splitOnSlash m).length := by
  induction m with
  | nil => simp at h
  | cons c rest ih =>
    by_cases hc : c = '/'
    · have h1 : splitOnSlash rest ≠ [] := splitOnSlash_ne_nil rest
      have h2 : 1 ≤ (splitOnSlash rest).length := List.length_pos.mpr h1
      simp [splitOnSlash, hc]
      omega
    · rw [List.contains_cons] at h
      have hr : rest.contains '/' = true := by
        rcases Bool.or_eq_true_iff.mp h with h' | h'
        · exact absurd (beq_iff_eq.mp h').symm hc
        · exact h'
      have h2 := ih hr
      rcases hsp : splitOnSlash rest with _ | ⟨hd, t⟩
      · exact absurd hsp (splitOnSlash_ne_nil rest)
      · rw [hsp] at h2
        simp [splitOnSlash, hc, hsp]
        simp at h2
        omega

lemma lastD_cons_of_ne_nil (x : Str) {r : List Str} (h : r ≠ []) :
    lastD (x :: r) = lastD r := by
  cases r with
  | nil => exact absurd rfl h
  | cons b bs => rfl

lemma splitLast_eq (m : Str) : lastD (splitOnSlash m) = lastAfterSlash m := by
  induction m with
  | nil => rfl
  | cons c rest ih =>
    by_cases hc : c = '/'
    · have h1 := splitOnSlash_ne_nil rest
      have hstep : lastD (splitOnSlash (c :: rest)) = lastD (splitOnSlash rest) := by
        simp only [splitOnSlash, if_pos hc]
        exact lastD_cons_of_ne_nil [] h1
      rw [hstep, ih]
      by_cases hr : rest.contains '/' = true
      · have hm : '/' ∈ rest := by simpa using hr
        simp [lastAfterSlash, hc, hm]
      · have hr' : rest.contains '/' = false := by simpa using hr
        have hm : ¬ '/' ∈ rest := by simpa using hr'
        simp [lastAfterSlash, hc, hm, lastAfterSlash_of_not_contains rest hr']
    · by_cases hr : rest.contains '/' = true
      · have hm : '/' ∈ rest := by simpa using hr
        have h2 := splitOnSlash_length_of_contains rest hr
        rcases hsp : splitOnSlash rest with _ | ⟨hd, t⟩
        · exact absurd hsp (splitOnSlash_ne_nil rest)
        · have ht : t ≠ [] := by
            rw [hsp] at h2; simp at h2
            cases t with
            | nil => simp at h2
            | cons a b => simp
          have lhs1 : lastD (splitOnSlash (c :: rest)) = lastD ((c :: hd) :: t) := by
            simp [splitOnSlash, hc, hsp]
          rw [lhs1, lastD_cons_of_ne_nil _ ht]
          rw [hsp] at ih
          rw [lastD_cons_of_ne_nil _ ht] at ih
          rw [ih]
          simp [lastAfterSlash, hm]
      · have hr' : rest.contains '/' = false := by simpa using hr
        have hm : ¬ '/' ∈ rest := by simpa using hr'
        have hsp := splitOnSlash_of_not_contains rest hr'
        have lhs1 : lastD (splitOnSlash (c :: rest)) = c :: rest := by
          simp [splitOnSlash, hc, hsp, lastD]
        rw [lhs1]
        simp [lastAfterSlash, hm, hc]

lemma joinSpace_map_of_fixed_space (f : Char → Char) (hf : f ' ' = ' ') :
    ∀ args : List Str, (joinSpace args).map f = joinSpace (args.map (List.map f))
  | [] => rfl
  | [a] => rfl
  | a :: b :: rest => by
    simp only [joinSpace, List.map_append, List.map_cons, hf]
    rw [joinSpace_map_of_fixed_space f hf (b :: rest)]
    simp [joinSpace]

lemma dbLookup_dbInsert_self (k : Str) (v : FileRecord) (db : Db) :
    dbLookup k (dbInsert k v db) = some v := by
  induction db with
  | nil => simp [dbInsert, dbLookup]
  | cons kv rest ih =>
    by_cases hk : k = kv.1
    · simp [dbInsert, hk, dbLookup]
    · simp [dbInsert, hk, dbLookup, ih]

lemma countKey_of_not_mem (k : Str) (db : Db) (h : k ∉ db.map Prod.fst) :
    countKey k db = 0 := by
  induction db with
  | nil => rfl
  | cons kv rest ih =>
    simp only [List.map_cons, List.mem_cons] at h
    push_neg at h
    have hne : ¬ kv.1 = k := fun hh => h.1 hh.symm
    simp only [countKey, if_neg hne]
    simpa using ih h.2

lemma countKey_dbInsert (k : Str) (v : FileRecord) (db : Db) (h : keysNodup db) :
    countKey k (dbInsert k v db) = 1 := by
  induction db with
  | nil => simp [dbInsert, countKey]
  | cons kv rest ih =>
    unfold keysNodup at h
    simp only [List.map_cons, List.nodup_cons] at h
    by_cases hk : k = kv.1
    · have h0 : countKey k rest = 0 :=
        countKey_of_not_mem k rest (hk ▸ h.1)
      simp only [dbInsert, if_pos hk, countKey, if_pos rfl, h0]
      simp
    · have hne : ¬ kv.1 = k := fun hh => hk hh.symm
      simp only [dbInsert, if_neg hk, countKey, if_neg hne]
      simpa using ih h.2

lemma mem_keys_dbInsert (x k : Str) (v : FileRecord) (db : Db)
    (h : x ∈ (dbInsert k v db).map Prod.fst) : x = k ∨ x ∈ db.map Prod.fst := by
  induction db with
  | nil => simpa [dbInsert] using h
  | cons kv rest ih =>
    by_cases hk : k = kv.1
    · simp only [dbInsert, if_pos hk, List.map_cons, List.mem_cons] at h
      rcases h with h | h
      · exact Or.inl h
      · exact Or.inr (by rw [List.map_cons]; exact List.mem_cons.mpr (Or.inr h))
    · simp only [dbInsert, if_neg hk, List.map_cons, List.mem_cons] at h
      rcases h with h | h
      · exact Or.inr (by rw [List.map_cons]; exact List.mem_cons.mpr (Or.inl h))
      · rcases ih h with h' | h'
        · exact Or.inl h'
        · exact Or.inr (by rw [List.map_cons]; exact List.mem_cons.mpr (Or.inr h'))

lemma keysNodup_dbInsert (k : Str) (v : FileRecord) (db : Db) (h : keysNodup db) :
    keysNodup (dbInsert k v db) := by
  induction db with
  | nil => simp [dbInsert, keysNodup]
  | cons kv rest ih =>
    unfold keysNodup at h ⊢
    simp only [List.map_cons, List.nodup_cons] at h
    by_cases hk : k = kv.1
    · simp only [dbInsert, if_pos hk, List.map_cons, List.nodup_cons]
      exact ⟨hk ▸ h.1, h.2⟩
    · simp only [dbInsert, if_neg hk, List.map_cons, List.nodup_cons]
      refine ⟨fun hm => ?_, ih h.2⟩
      rcases mem_keys_dbInsert kv.1 k v rest hm with h' | h'
      · exact hk h'.symm
      · exact h.1 h'

lemma selectAttachment_doc (msg : Message) (a : Attachment) (hd : msg.document = some a) :
    selectAttachment msg = some (a, orDefault a.file_name (str "Unnamed Document"),
      orDefault a.mime_type (str "application/octet-stream")) := by
  unfold selectAttachment
  rw [hd]

lemma selectAttachment_vid (msg : Message) (a : Attachment)
    (hd : msg.document = none) (hv : msg.video = some a) :
    selectAttachment msg = some (a, orDefault a.file_name (str "Unnamed Video"),
      orDefault a.mime_type (str "video/mp4")) := by
  unfold selectAttachment
  rw [hd, hv]

lemma selectAttachment_aud (msg : Message) (a : Attachment)
    (hd : msg.document = none) (hv : msg.video = none) (hau : msg.audio = some a) :
    selectAttachment msg = some (a, orDefault a.file_name (str "Unnamed Audio"),
      orDefault a.mime_type (str "audio/mpeg")) := by
  unfold selectAttachment
  rw [hd, hv, hau]

lemma selectAttachment_none (msg : Message)
    (hd : msg.document = none) (hv : msg.video = none) (hau : msg.audio = none) :
    selectAttachment msg = none := by
  unfold selectAttachment
  rw [hd, hv, hau]

lemma handle_file_of_select_none (db : Db) (msg : Message)
    (h : selectAttachment msg = none) :
    handle_file db msg = (db, IngestResult.unsupported) := by
  simp [handle_file, h]

lemma handle_file_of_select_some (db : Db) (msg : Message) (a : Attachment)
    (name mime : Str) (h : selectAttachment msg = some (a, name, mime)) :
    handle_file db msg =
      (dbInsert a.file_id
        { file_name := name, mime_type := mime, user_id := msg.from_user_id,
          type_hint := get_file_type_hint mime, file_unique_id := a.file_unique_id } db,
       IngestResult.stored a.file_id
        { file_name := name, mime_type := mime, user_id := msg.from_user_id,
          type_hint := get_file_type_hint mime, file_unique_id := a.file_unique_id }) := by
  simp [handle_file, h]

lemma keysNodup_of_reachable (db : Db) (h : Reachable db) : keysNodup db := by
  induction h with
  | init => simp [keysNodup]
  | step msg hdb ih =>
    rcases hsel : selectAttachment msg with _ | ⟨a, name, mime⟩
    · rw [handle_file_of_select_none _ _ hsel]
      exact ih
    · rw [handle_file_of_select_some _ _ _ _ _ hsel]
      exact keysNodup_dbInsert _ _ _ ih

lemma mem_dbInsert (kv : Str × FileRecord) (k : Str) (v : FileRecord) (db : Db)
    (h : kv ∈ dbInsert k v db) : kv = (k, v) ∨ kv ∈ db := by
  induction db with
  | nil => simpa [dbInsert] using h
  | cons kv₀ rest ih =>
    by_cases hk : k = kv₀.1
    · simp only [dbInsert, if_pos hk, List.mem_cons] at h
      rcases h with h | h
      · exact Or.inl h
      · exact Or.inr (List.mem_cons.mpr (Or.inr h))
    · simp only [dbInsert, if_neg hk, List.mem_cons] at h
      rcases h with h | h
      · exact Or.inr (List.mem_cons.mpr (Or.inl h))
      · rcases ih h with h' | h'
        · exact Or.inl h'
        · exact Or.inr (List.mem_cons.mpr (Or.inr h'))

lemma orDefault_ne_nil (x : Option Str) (d : Str) (hd : d ≠ []) :
    orDefault x d ≠ [] := by
  cases x with
  | none => simpa [orDefault] using hd
  | some s =>
    by_cases hs : s = []
    · simp only [orDefault, if_pos hs]
      exact hd
    · simp only [orDefault, if_neg hs]
      exact hs

lemma selectAttachment_some_ne_nil (msg : Message) (a : Attachment) (name mime : Str)
    (h : selectAttachment msg = some (a, name, mime)) : name ≠ [] ∧ mime ≠ [] := by
  unfold selectAttachment at h
  rcases hd : msg.document with _ | a₁ <;> rw [hd] at h
  · rcases hv : msg.video with _ | a₁ <;> rw [hv] at h
    · rcases hau : msg.audio with _ | a₁ <;> rw [hau] at h
      · simp at h
      · simp only [Option.some.injEq, Prod.mk.injEq] at h
        rcases h with ⟨_, hn, hm⟩
        exact ⟨hn ▸ orDefault_ne_nil _ _ (by decide), hm ▸ orDefault_ne_nil _ _ (by decide)⟩
    · simp only [Option.some.injEq, Prod.mk.injEq] at h
      rcases h with ⟨_, hn, hm⟩
      exact ⟨hn ▸ orDefault_ne_nil _ _ (by decide), hm ▸ orDefault_ne_nil _ _ (by decide)⟩
  · simp only [Option.some.injEq, Prod.mk.injEq] at h
    rcases h with ⟨_, hn, hm⟩
    exact ⟨hn ▸ orDefault_ne_nil _ _ (by decide), hm ▸ orDefault_ne_nil _ _ (by decide)⟩

/-- Claim C1: for every index contents and every query, the search scan
returns only records whose owner (`user_id`) equals the searching user; a
record owned by a different user never appears in the result sequence. -/
theorem searchScan_owner_only (db : Db) (u : Nat) (q : Str) :
    ∀ r ∈ searchScan db u q, r.user_id = u := by
  intro r hr
  simp only [searchScan, List.mem_map, List.mem_filter] at hr
  rcases hr with ⟨kv, ⟨_, hp⟩, rfl⟩
  rw [Bool.and_eq_true] at hp
  exact beq_iff_eq.mp hp.1

/-- Witness for C1: the record named "x1" of user 1 is in the scan result
for user 1, and the theorem yields that its owner is user 1. -/
theorem searchScan_owner_only_witness :
    xrec "x1" ∈ searchScan db7 1 (str "x1") ∧ (xrec "x1").user_id = 1 :=
  ⟨by decide, searchScan_owner_only db7 1 (str "x1") (xrec "x1") (by decide)⟩

/-- Claim C2: `get_file_type_hint` equals the reference classifier written
from the specification, on every input string: fixed video, document, image
sets first (in that order), then the uppercased substring after the last
`'/'` when the string contains one, else `"Other File"`. Both sides are
total pure functions. -/
theorem get_file_type_hint_eq_classifyRef (m : Str) :
    get_file_type_hint m = classifyRef m := by
  unfold get_file_type_hint classifyRef
  rw [splitLast_eq]

/-- Claim C3: whenever `search_files` replies with a result list, that list
is exactly the first 5 matches of the scan in index (insertion) order, the
reported total is the true number of matching records, and the list length
is `min 5 total`. -/
theorem search_results_take5 (db : Db) (u : Nat) (args : List Str)
    (shown : List FileRecord) (total : Nat)
    (h : search_files db u args = SearchOutcome.results shown total) :
    shown = (searchScan db u ((joinSpace args).map Char.toLower)).take 5 ∧
    total = (searchScan db u ((joinSpace args).map Char.toLower)).length ∧
    shown.length = min 5 total := by
  by_cases ha : args = []
  · rw [ha] at h; simp [search_files] at h
  · simp only [search_files, if_neg ha] at h
    by_cases hres : searchScan db u ((joinSpace args).map Char.toLower) = []
    · simp only [hres, if_pos rfl] at h
      exact absurd h (by simp)
    · simp only [if_neg hres, SearchOutcome.results.injEq] at h
      rcases h with ⟨h1, h2⟩
      subst h1
      subst h2
      exact ⟨rfl, rfl, List.length_take 5 _⟩

/-- Witness for C3: seven records of user 1 match query "x"; the reply
shows the first five in index order and reports total 7. -/
theorem search_results_take5_witness :
    search_files db7 1 [str "x"] = SearchOutcome.results top5 7 ∧
    (top5 = (searchScan db7 1 ((joinSpace [str "x"]).map Char.toLower)).take 5 ∧
     7 = (searchScan db7 1 ((joinSpace [str "x"]).map Char.toLower)).length ∧
     top5.length = min 5 7) :=
  ⟨by decide, search_results_take5 db7 1 [str "x"] top5 7 (by decide)⟩

/-- Claim C4: ingesting a second attachment with the same `file_id` leaves
exactly one record under that id, and it is exactly the record of the
second ingestion (last-write-wins, no merge). -/
theorem ingest_last_write_wins (db db₁ db₂ : Db) (msg₁ msg₂ : Message)
    (k : Str) (r₁ r₂ : FileRecord)
    (hdb : Reachable db)
    (h₁ : handle_file db msg₁ = (db₁, IngestResult.stored k r₁))
    (h₂ : handle_file db₁ msg₂ = (db₂, IngestResult.stored k r₂)) :
    countKey k db₂ = 1 ∧ dbLookup k db₂ = some r₂ := by
  have hnd : keysNodup db := keysNodup_of_reachable db hdb
  rcases hsel₁ : selectAttachment msg₁ with _ | ⟨a₁, name₁, mime₁⟩
  · rw [handle_file_of_select_none _ _ hsel₁] at h₁
    simp at h₁
  · rw [handle_file_of_select_some _ _ _ _ _ hsel₁] at h₁
    simp only [Prod.mk.injEq, IngestResult.stored.injEq] at h₁
    rcases h₁ with ⟨hdb₁, hk₁, _⟩
    have hnd₁ : keysNodup db₁ := hdb₁ ▸ keysNodup_dbInsert _ _ _ hnd
    rcases hsel₂ : selectAttachment msg₂ with _ | ⟨a₂, name₂, mime₂⟩
    · rw [handle_file_of_select_none _ _ hsel₂] at h₂
      simp at h₂
    · rw [handle_file_of_select_some _ _ _ _ _ hsel₂] at h₂
      simp only [Prod.mk.injEq, IngestResult.stored.injEq] at h₂
      rcases h₂ with ⟨hdb₂, hk₂, hr₂⟩
      subst hk₂
      refine ⟨?_, ?_⟩
      · rw [← hdb₂]
        exact countKey_dbInsert _ _ _ hnd₁
      · rw [← hdb₂, ← hr₂]
        exact dbLookup_dbInsert_self _ _ _

/-- Witness for C4: storing `attReport` then `attBackup` (same file id,
different metadata) leaves one record, equal to the second one. -/
theorem ingest_last_write_wins_witness :
    handle_file [] msgReport =
      ([(str "fid-report", recReport)], IngestResult.stored (str "fid-report") recReport) ∧
    handle_file [(str "fid-report", recReport)]
        { document := some attBackup, video := none, audio := none, from_user_id := 43 } =
      ([(str "fid-report", recBackup)], IngestResult.stored (str "fid-report") recBackup) ∧
    (countKey (str "fid-report") [(str "fid-report", recBackup)] = 1 ∧
     dbLookup (str "fid-report") [(str "fid-report", recBackup)] = some recBackup) :=
  ⟨by decide, by decide,
   ingest_last_write_wins [] [(str "fid-report", recReport)] [(str "fid-report", recBackup)]
     msgReport { document := some attBackup, video := none, audio := none, from_user_id := 43 }
     (str "fid-report") recReport recBackup Reachable.init (by decide) (by decide)⟩

/-- Claim C5: search is case-insensitive: two argument lists that agree
after character-wise lower-casing produce identical search outcomes
(identical result records and identical totals), for every index. -/
theorem search_case_insensitive (db : Db) (u : Nat) (args args' : List Str)
    (h : args.map (List.map Char.toLower) = args'.map (List.map Char.toLower)) :
    search_files db u args = search_files db u args' := by
  by_cases ha : args = []
  · have ha' : args' = [] := by
      have := congrArg List.length h
      simp [ha] at this
      exact List.eq_nil_of_length_eq_zero this.symm
    rw [ha, ha']
  · have ha' : args' ≠ [] := by
      intro hh
      rw [hh] at h
      simp at h
      exact ha h
    have hq : (joinSpace args).map Char.toLower = (joinSpace args').map Char.toLower := by
      have hsp : Char.toLower ' ' = ' ' := by decide
      rw [joinSpace_map_of_fixed_space Char.toLower hsp args,
          joinSpace_map_of_fixed_space Char.toLower hsp args', h]
    simp only [search_files, if_neg ha, if_neg ha']
    rw [hq]

/-- Witness for C5: searching "MOVIE" and "movie" over an index holding
"MyMovie.mp4" yields identical outcomes. -/
theorem search_case_insensitive_witness :
    [str "MOVIE"].map (List.map Char.toLower) = [str "movie"].map (List.map Char.toLower) ∧
    search_files dbMovie 1 [str "MOVIE"] = search_files dbMovie 1 [str "movie"] :=
  ⟨by decide, search_case_insensitive dbMovie 1 [str "MOVIE"] [str "movie"] (by decide)⟩

/-- Claim C6: ingestion resolves attachment kinds with precedence
document > video > audio (a document wins no matter what else the message
carries; a video wins over an audio clip), and fills absent metadata per
variant: a missing filename becomes the variant placeholder and a missing
MIME type becomes the variant default. -/
theorem ingest_precedence_defaults (db : Db) (msg : Message) (a : Attachment) :
    (msg.document = some a →
      ∃ r, handle_file db msg = (dbInsert a.file_id r db, IngestResult.stored a.file_id r) ∧
        r.file_name = orDefault a.file_name (str "Unnamed Document") ∧
        r.mime_type = orDefault a.mime_type (str "application/octet-stream") ∧
        (a.file_name = none → r.file_name = str "Unnamed Document") ∧
        (a.mime_type = none → r.mime_type = str "application/octet-stream")) ∧
    (msg.document = none → msg.video = some a →
      ∃ r, handle_file db msg = (dbInsert a.file_id r db, IngestResult.stored a.file_id r) ∧
        r.file_name = orDefault a.file_name (str "Unnamed Video") ∧
        r.mime_type = orDefault a.mime_type (str "video/mp4") ∧
        (a.file_name = none → r.file_name = str "Unnamed Video") ∧
        (a.mime_type = none → r.mime_type = str "video/mp4")) ∧
    (msg.document = none → msg.video = none → msg.audio = some a →
      ∃ r, handle_file db msg = (dbInsert a.file_id r db, IngestResult.stored a.file_id r) ∧
        r.file_name = orDefault a.file_name (str "Unnamed Audio") ∧
        r.mime_type = orDefault a.mime_type (str "audio/mpeg") ∧
        (a.file_name = none → r.file_name = str "Unnamed Audio") ∧
        (a.mime_type = none → r.mime_type = str "audio/mpeg")) := by
  refine ⟨fun hd => ?_, fun hd hv => ?_, fun hd hv hau => ?_⟩
  · exact ⟨_, handle_file_of_select_some db msg a _ _ (selectAttachment_doc msg a hd),
      rfl, rfl, fun hn => by simp [orDefault, hn], fun hn => by simp [orDefault, hn]⟩
  · exact ⟨_, handle_file_of_select_some db msg a _ _ (selectAttachment_vid msg a hd hv),
      rfl, rfl, fun hn => by simp [orDefault, hn], fun hn => by simp [orDefault, hn]⟩
  · exact ⟨_, handle_file_of_select_some db msg a _ _ (selectAttachment_aud msg a hd hv hau),
      rfl, rfl, fun hn => by simp [orDefault, hn], fun hn => by simp [orDefault, hn]⟩

/-- Witness for C6: storing an attachment with no declared filename or MIME
type as a document, a video, and an audio clip yields the three
variant-specific placeholders and defaults. -/
theorem ingest_precedence_defaults_witness :
    msgNoMetaDoc.document = some attNoMeta ∧
    (∃ r, handle_file [] msgNoMetaDoc =
        (dbInsert attNoMeta.file_id r [], IngestResult.stored attNoMeta.file_id r) ∧
      r.file_name = orDefault attNoMeta.file_name (str "Unnamed Document") ∧
      r.mime_type = orDefault attNoMeta.mime_type (str "application/octet-stream") ∧
      (attNoMeta.file_name = none → r.file_name = str "Unnamed Document") ∧
      (attNoMeta.mime_type = none → r.mime_type = str "application/octet-stream")) ∧
    msgNoMetaVid.document = none ∧ msgNoMetaVid.video = some attNoMeta ∧
    (∃ r, handle_file [] msgNoMetaVid =
        (dbInsert attNoMeta.file_id r [], IngestResult.stored attNoMeta.file_id r) ∧
      r.file_name = orDefault attNoMeta.file_name (str "Unnamed Video") ∧
      r.mime_type = orDefault attNoMeta.mime_type (str "video/mp4") ∧
      (attNoMeta.file_name = none → r.file_name = str "Unnamed Video") ∧
      (attNoMeta.mime_type = none → r.mime_type = str "video/mp4")) ∧
    msgNoMetaAud.document = none ∧ msgNoMetaAud.video = none ∧
    msgNoMetaAud.audio = some attNoMeta ∧
    (∃ r, handle_file [] msgNoMetaAud =
        (dbInsert attNoMeta.file_id r [], IngestResult.stored attNoMeta.file_id r) ∧
      r.file_name = orDefault attNoMeta.file_name (str "Unnamed Audio") ∧
      r.mime_type = orDefault attNoMeta.mime_type (str "audio/mpeg") ∧
      (attNoMeta.file_name = none → r.file_name = str "Unnamed Audio") ∧
      (attNoMeta.mime_type = none → r.mime_type = str "audio/mpeg")) :=
  ⟨rfl, (ingest_precedence_defaults [] msgNoMetaDoc attNoMeta).1 rfl,
   rfl, rfl, (ingest_precedence_defaults [] msgNoMetaVid attNoMeta).2.1 rfl rfl,
   rfl, rfl, rfl, (ingest_precedence_defaults [] msgNoMetaAud attNoMeta).2.2 rfl rfl rfl⟩

/-- Claim C7: a search command with no query text is rejected with the
missing-keyword prompt, for every index contents and user: the outcome is
fixed, so the Search component (the index scan) is never consulted. -/
theorem search_files_missing_query (db : Db) (u : Nat) :
    search_files db u [] = SearchOutcome.missingQuery := by
  simp [search_files]

/-- Claim C8: a message carrying none of the three attachment kinds leaves
the index exactly unchanged and signals the unsupported-attachment
condition (the "nothing to process" reply). -/
theorem ingest_unsupported_noop (db : Db) (msg : Message)
    (hd : msg.document = none) (hv : msg.video = none) (ha : msg.audio = none) :
    handle_file db msg = (db, IngestResult.unsupported) :=
  handle_file_of_select_none db msg (selectAttachment_none msg hd hv ha)

/-- Witness for C8: a message with no attachment leaves the seven-record
index untouched and reports the unsupported condition. -/
theorem ingest_unsupported_noop_witness :
    msgNothing.document = none ∧ msgNothing.video = none ∧ msgNothing.audio = none ∧
    handle_file db7 msgNothing = (db7, IngestResult.unsupported) :=
  ⟨rfl, rfl, rfl, ingest_unsupported_noop db7 msgNothing rfl rfl rfl⟩

/-- Claim C9: in every index state reachable by the program's operations
(ingest steps; search mutates nothing), every stored record satisfies
`type_hint = get_file_type_hint mime_type` for its own stored `mime_type` —
the hint is computed from the MIME type at insertion and never stored
inconsistently with it. -/
theorem type_hint_invariant (db : Db) (h : Reachable db) :
    ∀ kv ∈ db, kv.2.type_hint = get_file_type_hint kv.2.mime_type := by
  induction h with
  | init => intro kv hkv; simp at hkv
  | step msg₂ hdb ih =>
    intro kv hkv
    rcases hsel : selectAttachment msg₂ with _ | ⟨a₂, name₂, mime₂⟩
    · rw [handle_file_of_select_none _ _ hsel] at hkv
      exact ih kv hkv
    · rw [handle_file_of_select_some _ _ _ _ _ hsel] at hkv
      rcases mem_dbInsert _ _ _ _ hkv with h' | h'
      · subst h'
        rfl
      · exact ih kv h'

/-- Witness for C9: after ingesting `attReport` into the empty index, the
stored record's hint equals the classifier applied to its MIME type. -/
theorem type_hint_invariant_witness :
    (str "fid-report", recReport) ∈ (handle_file [] msgReport).1 ∧
    recReport.type_hint = get_file_type_hint recReport.mime_type :=
  ⟨by decide,
   type_hint_invariant (handle_file [] msgReport).1
     (Reachable.step msgReport Reachable.init) (str "fid-report", recReport) (by decide)⟩

/-- Claim C10: ingestion treats an empty-string declared filename or MIME
type like an absent one — each of the three variants stores its placeholder
name or default MIME type for an empty-string field — and consequently no
record in any reachable index state has an empty `file_name` or
`mime_type`. -/
theorem ingest_empty_as_absent (db : Db) (msg : Message) (a : Attachment) :
    (msg.document = some a → a.file_name = some [] →
      ∃ r, handle_file db msg = (dbInsert a.file_id r db, IngestResult.stored a.file_id r) ∧
        r.file_name = str "Unnamed Document") ∧
    (msg.document = some a → a.mime_type = some [] →
      ∃ r, handle_file db msg = (dbInsert a.file_id r db, IngestResult.stored a.file_id r) ∧
        r.mime_type = str "application/octet-stream") ∧
    (msg.document = none → msg.video = some a → a.file_name = some [] →
      ∃ r, handle_file db msg = (dbInsert a.file_id r db, IngestResult.stored a.file_id r) ∧
        r.file_name = str "Unnamed Video") ∧
    (msg.document = none → msg.video = some a → a.mime_type = some [] →
      ∃ r, handle_file db msg = (dbInsert a.file_id r db, IngestResult.stored a.file_id r) ∧
        r.mime_type = str "video/mp4") ∧
    (msg.document = none → msg.video = none → msg.audio = some a → a.file_name = some [] →
      ∃ r, handle_file db msg = (dbInsert a.file_id r db, IngestResult.stored a.file_id r) ∧
        r.file_name = str "Unnamed Audio") ∧
    (msg.document = none → msg.video = none → msg.audio = some a → a.mime_type = some [] →
      ∃ r, handle_file db msg = (dbInsert a.file_id r db, IngestResult.stored a.file_id r) ∧
        r.mime_type = str "audio/mpeg") ∧
    (Reachable db → ∀ kv ∈ db, kv.2.file_name ≠ [] ∧ kv.2.mime_type ≠ []) := by
  refine ⟨fun hd hn => ?_, fun hd hn => ?_, fun hd hv hn => ?_, fun hd hv hn => ?_,
    fun hd hv hau hn => ?_, fun hd hv hau hn => ?_, fun hr => ?_⟩
  · exact ⟨_, handle_file_of_select_some db msg a _ _ (selectAttachment_doc msg a hd),
      by simp [orDefault, hn]⟩
  · exact ⟨_, handle_file_of_select_some db msg a _ _ (selectAttachment_doc msg a hd),
      by simp [orDefault, hn]⟩
  · exact ⟨_, handle_file_of_select_some db msg a _ _ (selectAttachment_vid msg a hd hv),
      by simp [orDefault, hn]⟩
  · exact ⟨_, handle_file_of_select_some db msg a _ _ (selectAttachment_vid msg a hd hv),
      by simp [orDefault, hn]⟩
  · exact ⟨_, handle_file_of_select_some db msg a _ _ (selectAttachment_aud msg a hd hv hau),
      by simp [orDefault, hn]⟩
  · exact ⟨_, handle_file_of_select_some db msg a _ _ (selectAttachment_aud msg a hd hv hau),
      by simp [orDefault, hn]⟩
  · induction hr with
    | init => intro kv hkv; simp at hkv
    | step msg₂ hdb ih =>
      intro kv hkv
      rcases hsel : selectAttachment msg₂ with _ | ⟨a₂, name₂, mime₂⟩
      · rw [handle_file_of_select_none _ _ hsel] at hkv
        exact ih kv hkv
      · rw [handle_file_of_select_some _ _ _ _ _ hsel] at hkv
        rcases mem_dbInsert _ _ _ _ hkv with h' | h'
        · subst h'
          exact selectAttachment_some_ne_nil msg₂ a₂ name₂ mime₂ hsel
        · exact ih kv h'

/-- Witness for C10: an attachment declaring empty-string filename and MIME
type, stored as each of the three variants, yields the placeholders and
defaults; and the record stored for `attReport` has nonempty fields. -/
theorem ingest_empty_as_absent_witness :
    msgEmptyDoc.document = some attEmptyMeta ∧
    attEmptyMeta.file_name = some [] ∧ attEmptyMeta.mime_type = some [] ∧
    (∃ r, handle_file [] msgEmptyDoc =
        (dbInsert attEmptyMeta.file_id r [], IngestResult.stored attEmptyMeta.file_id r) ∧
      r.file_name = str "Unnamed Document") ∧
    (∃ r, handle_file [] msgEmptyDoc =
        (dbInsert attEmptyMeta.file_id r [], IngestResult.stored attEmptyMeta.file_id r) ∧
      r.mime_type = str "application/octet-stream") ∧
    (∃ r, handle_file [] msgEmptyVid =
        (dbInsert attEmptyMeta.file_id r [], IngestResult.stored attEmptyMeta.file_id r) ∧
      r.file_name = str "Unnamed Video") ∧
    (∃ r, handle_file [] msgEmptyVid =
        (dbInsert attEmptyMeta.file_id r [], IngestResult.stored attEmptyMeta.file_id r) ∧
      r.mime_type = str "video/mp4") ∧
    (∃ r, handle_file [] msgEmptyAud =
        (dbInsert attEmptyMeta.file_id r [], IngestResult.stored attEmptyMeta.file_id r) ∧
      r.file_name = str "Unnamed Audio") ∧
    (∃ r, handle_file [] msgEmptyAud =
        (dbInsert attEmptyMeta.file_id r [], IngestResult.stored attEmptyMeta.file_id r) ∧
      r.mime_type = str "audio/mpeg") ∧
    ((str "fid-report", recReport).2.file_name ≠ [] ∧
     (str "fid-report", recReport).2.mime_type ≠ []) :=
  ⟨rfl, rfl, rfl,
   (ingest_empty_as_absent [] msgEmptyDoc attEmptyMeta).1 rfl rfl,
   (ingest_empty_as_absent [] msgEmptyDoc attEmptyMeta).2.1 rfl rfl,
   (ingest_empty_as_absent [] msgEmptyVid attEmptyMeta).2.2.1 rfl rfl rfl,
   (ingest_empty_as_absent [] msgEmptyVid attEmptyMeta).2.2.2.1 rfl rfl rfl,
   (ingest_empty_as_absent [] msgEmptyAud attEmptyMeta).2.2.2.2.1 rfl rfl rfl rfl,
   (ingest_empty_as_absent [] msgEmptyAud attEmptyMeta).2.2.2.2.2.1 rfl rfl rfl rfl,
   (ingest_empty_as_absent (handle_file [] msgReport).1 msgReport attReport).2.2.2.2.2.2
     (Reachable.step msgReport Reachable.init) (str "fid-report", recReport) (by decide)⟩
